import Mathlib

/-!
Shallow embedding of the orbclient SDL2 `Window` adapter
(`src/sdl2/window.rs`) and proofs about its observable behavior.

Machine integers are modelled as `Nat`/`Int` with explicit wrapping where
the Rust code performs casts (`u32 as i32`, `u32 as u8`); draw calls are
reified as lists of `Draw` values in the order the code issues them;
the event pump is modelled as an explicit queue (`List NativeEvent`).
-/

/-! ## Logical key codes

The constants `K_A`, `K_B`, ... are imported by `window.rs` from the
crate's `event` module, whose source file is not part of the sources at
hand.  Modelled from the spec: the spec says only that each recognized
key carries "a numeric scancode identifier" (a distinct logical code,
with both Ctrl keys sharing `K_CTRL` and both Alt keys sharing `K_ALT`);
no claim depends on the concrete numeric values, so they are assigned
sequentially here. -/

def K_A : Nat := 0
def K_B : Nat := 1
def K_C : Nat := 2
def K_D : Nat := 3
def K_E : Nat := 4
def K_F : Nat := 5
def K_G : Nat := 6
def K_H : Nat := 7
def K_I : Nat := 8
def K_J : Nat := 9
def K_K : Nat := 10
def K_L : Nat := 11
def K_M : Nat := 12
def K_N : Nat := 13
def K_O : Nat := 14
def K_P : Nat := 15
def K_Q : Nat := 16
def K_R : Nat := 17
def K_S : Nat := 18
def K_T : Nat := 19
def K_U : Nat := 20
def K_V : Nat := 21
def K_W : Nat := 22
def K_X : Nat := 23
def K_Y : Nat := 24
def K_Z : Nat := 25
def K_0 : Nat := 26
def K_1 : Nat := 27
def K_2 : Nat := 28
def K_3 : Nat := 29
def K_4 : Nat := 30
def K_5 : Nat := 31
def K_6 : Nat := 32
def K_7 : Nat := 33
def K_8 : Nat := 34
def K_9 : Nat := 35
def K_TICK : Nat := 36
def K_MINUS : Nat := 37
def K_EQUALS : Nat := 38
def K_BRACE_OPEN : Nat := 39
def K_BRACE_CLOSE : Nat := 40
def K_BACKSLASH : Nat := 41
def K_SEMICOLON : Nat := 42
def K_QUOTE : Nat := 43
def K_COMMA : Nat := 44
def K_PERIOD : Nat := 45
def K_SLASH : Nat := 46
def K_SPACE : Nat := 47
def K_BKSP : Nat := 48
def K_TAB : Nat := 49
def K_CTRL : Nat := 50
def K_ALT : Nat := 51
def K_ENTER : Nat := 52
def K_ESC : Nat := 53
def K_F1 : Nat := 54
def K_F2 : Nat := 55
def K_F3 : Nat := 56
def K_F4 : Nat := 57
def K_F5 : Nat := 58
def K_F6 : Nat := 59
def K_F7 : Nat := 60
def K_F8 : Nat := 61
def K_F9 : Nat := 62
def K_F10 : Nat := 63
def K_HOME : Nat := 64
def K_UP : Nat := 65
def K_PGUP : Nat := 66
def K_LEFT : Nat := 67
def K_RIGHT : Nat := 68
def K_END : Nat := 69
def K_DOWN : Nat := 70
def K_PGDN : Nat := 71
def K_DEL : Nat := 72
def K_F11 : Nat := 73
def K_F12 : Nat := 74
def K_LEFT_SHIFT : Nat := 75
def K_RIGHT_SHIFT : Nat := 76

/-! ## Scancodes

The SDL2 scancodes matched by `Window::convert_scancode`
(`window.rs` lines 229-310).  The source match ends in `_ => None`;
all SDL2 scancodes outside the recognized set are collapsed into the
constructor `other`, which the embedding of `convert_scancode` sends to
`none` exactly like the source's catch-all arm. -/

inductive Scancode where
  | A | B | C | D | E | F | G | H | I | J | K | L | M
  | N | O | P | Q | R | S | T | U | V | W | X | Y | Z
  | Num0 | Num1 | Num2 | Num3 | Num4 | Num5 | Num6 | Num7 | Num8 | Num9
  | Grave | Minus | Equals | LeftBracket | RightBracket | Backslash
  | Semicolon | Apostrophe | Comma | Period | Slash
  | Space | Backspace | Tab | LCtrl | RCtrl | LAlt | RAlt | Return | Escape
  | F1 | F2 | F3 | F4 | F5 | F6 | F7 | F8 | F9 | F10
  | Home | Up | PageUp | Left | Right | End | Down | PageDown | Delete
  | F11 | F12 | LShift | RShift
  | other (n : Nat)

/-- Embedding of `Window::convert_scancode` (`window.rs` lines 227-314).
The body uses no window state: it is a function of the optional scancode
and the shift flag alone, exactly as in the source.  Characters that the
token rules of this development cannot write literally are written with
`Char.ofNat`: 96 is the backtick, 123 and 125 are the curly braces,
39 the apostrophe, 34 the double quote, 92 the backslash, 0 the NUL
character, 9 the tab, 10 the newline and 27 the escape character. -/
def convert_scancode (scancode_option : Option Scancode) (shift : Bool) : Option (Char × Nat) :=
  match scancode_option with
  | some scancode =>
    match scancode with
    | .A => some (if shift then 'A' else 'a', K_A)
    | .B => some (if shift then 'B' else 'b', K_B)
    | .C => some (if shift then 'C' else 'c', K_C)
    | .D => some (if shift then 'D' else 'd', K_D)
    | .E => some (if shift then 'E' else 'e', K_E)
    | .F => some (if shift then 'F' else 'f', K_F)
    | .G => some (if shift then 'G' else 'g', K_G)
    | .H => some (if shift then 'H' else 'h', K_H)
    | .I => some (if shift then 'I' else 'i', K_I)
    | .J => some (if shift then 'J' else 'j', K_J)
    | .K => some (if shift then 'K' else 'k', K_K)
    | .L => some (if shift then 'L' else 'l', K_L)
    | .M => some (if shift then 'M' else 'm', K_M)
    | .N => some (if shift then 'N' else 'n', K_N)
    | .O => some (if shift then 'O' else 'o', K_O)
    | .P => some (if shift then 'P' else 'p', K_P)
    | .Q => some (if shift then 'Q' else 'q', K_Q)
    | .R => some (if shift then 'R' else 'r', K_R)
    | .S => some (if shift then 'S' else 's', K_S)
    | .T => some (if shift then 'T' else 't', K_T)
    | .U => some (if shift then 'U' else 'u', K_U)
    | .V => some (if shift then 'V' else 'v', K_V)
    | .W => some (if shift then 'W' else 'w', K_W)
    | .X => some (if shift then 'X' else 'x', K_X)
    | .Y => some (if shift then 'Y' else 'y', K_Y)
    | .Z => some (if shift then 'Z' else 'z', K_Z)
    | .Num0 => some (if shift then '0' else ')', K_0)
    | .Num1 => some (if shift then '1' else '!', K_1)
    | .Num2 => some (if shift then '2' else '@', K_2)
    | .Num3 => some (if shift then '3' else '#', K_3)
    | .Num4 => some (if shift then '4' else '$', K_4)
    | .Num5 => some (if shift then '5' else '%', K_5)
    | .Num6 => some (if shift then '6' else '^', K_6)
    | .Num7 => some (if shift then '7' else '&', K_7)
    | .Num8 => some (if shift then '8' else '*', K_8)
    | .Num9 => some (if shift then '9' else '(', K_9)
    | .Grave => some (if shift then Char.ofNat 96 else '~', K_TICK)
    | .Minus => some (if shift then '-' else '_', K_MINUS)
    | .Equals => some (if shift then '=' else '+', K_EQUALS)
    | .LeftBracket => some (if shift then '[' else Char.ofNat 123, K_BRACE_OPEN)
    | .RightBracket => some (if shift then ']' else Char.ofNat 125, K_BRACE_CLOSE)
    | .Backslash => some (if shift then Char.ofNat 92 else '|', K_BACKSLASH)
    | .Semicolon => some (if shift then ';' else ':', K_SEMICOLON)
    | .Apostrophe => some (if shift then Char.ofNat 39 else Char.ofNat 34, K_QUOTE)
    | .Comma => some (if shift then ',' else '<', K_COMMA)
    | .Period => some (if shift then '.' else '>', K_PERIOD)
    | .Slash => some (if shift then '/' else '?', K_SLASH)
    | .Space => some (' ', K_SPACE)
    | .Backspace => some (Char.ofNat 0, K_BKSP)
    | .Tab => some (Char.ofNat 9, K_TAB)
    | .LCtrl => some (Char.ofNat 0, K_CTRL)
    | .RCtrl => some (Char.ofNat 0, K_CTRL)
    | .LAlt => some (Char.ofNat 0, K_ALT)
    | .RAlt => some (Char.ofNat 0, K_ALT)
    | .Return => some (Char.ofNat 10, K_ENTER)
    | .Escape => some (Char.ofNat 27, K_ESC)
    | .F1 => some (Char.ofNat 0, K_F1)
    | .F2 => some (Char.ofNat 0, K_F2)
    | .F3 => some (Char.ofNat 0, K_F3)
    | .F4 => some (Char.ofNat 0, K_F4)
    | .F5 => some (Char.ofNat 0, K_F5)
    | .F6 => some (Char.ofNat 0, K_F6)
    | .F7 => some (Char.ofNat 0, K_F7)
    | .F8 => some (Char.ofNat 0, K_F8)
    | .F9 => some (Char.ofNat 0, K_F9)
    | .F10 => some (Char.ofNat 0, K_F10)
    | .Home => some (Char.ofNat 0, K_HOME)
    | .Up => some (Char.ofNat 0, K_UP)
    | .PageUp => some (Char.ofNat 0, K_PGUP)
    | .Left => some (Char.ofNat 0, K_LEFT)
    | .Right => some (Char.ofNat 0, K_RIGHT)
    | .End => some (Char.ofNat 0, K_END)
    | .Down => some (Char.ofNat 0, K_DOWN)
    | .PageDown => some (Char.ofNat 0, K_PGDN)
    | .Delete => some (Char.ofNat 0, K_DEL)
    | .F11 => some (Char.ofNat 0, K_F11)
    | .F12 => some (Char.ofNat 0, K_F12)
    | .LShift => some (Char.ofNat 0, K_LEFT_SHIFT)
    | .RShift => some (Char.ofNat 0, K_RIGHT_SHIFT)
    | .other _ => none
  | none => none

/-! ## Color channel decoding

`Window::pixel` (line 127) and every other drawing primitive decodes a
32-bit packed `Color` value `d` into channel bytes as
`r = (d >> 16) as u8`, `g = (d >> 8) as u8`, `b = d as u8`,
`a = (d >> 24) as u8`; the `as u8` cast keeps the low 8 bits. -/

/-- Channel extraction as performed by the drawing primitives
(`window.rs` line 127): the tuple is (alpha, red, green, blue), alpha
taken from the most significant byte. -/
def decodeColor (d : Nat) : Nat × Nat × Nat × Nat :=
  ((d >>> 24) % 256, (d >>> 16) % 256, (d >>> 8) % 256, d % 256)

/-- Re-packing of the four channel bytes in the same significance order
(alpha highest), following the spec's round-trip property. -/
def packColor (a r g b : Nat) : Nat :=
  a * 2 ^ 24 + r * 2 ^ 16 + g * 2 ^ 8 + b

/-! ## Window state cache and `sync_path` -/

/-- The cached geometry/title fields of `Window`
(`window.rs` lines 10-31): position `x`,`y`, size `w`,`h`, title `t`. -/
structure WinCache where
  x : Int
  y : Int
  w : Nat
  h : Nat
  t : String
deriving DecidableEq

/-- Readings of the native window queried by `sync_path`:
`position()` and `size()` pairs and the current title. -/
structure NativeWin where
  posX : Int
  posY : Int
  sizeW : Nat
  sizeH : Nat
  title : String
deriving DecidableEq

/-- Embedding of `Window::sync_path` (`window.rs` lines 68-76).  The
source performs, in order: `self.x = window.position().0;`
`self.x = window.position().1;` (the second assignment targets `x`
again, not `y`), then updates `w`, `h` and `t`.  When `inner.window()`
returns `None`, nothing changes. -/
def sync_path (cache : WinCache) (native : Option NativeWin) : WinCache :=
  match native with
  | some window =>
    let c1 := { cache with x := window.posX }
    let c2 := { c1 with x := window.posY }
    let c3 := { c2 with w := window.sizeW }
    let c4 := { c3 with h := window.sizeH }
    { c4 with t := window.title }
  | none => cache

/-! ## Reified draw calls -/

/-- One native draw call issued by a drawing primitive.  Colors are the
32-bit packed values (modelled as `Nat`). -/
inductive Draw where
  | point (x y : Int) (color : Nat)
  | line (x1 y1 x2 y2 : Int) (color : Nat)
deriving DecidableEq

/-- Embedding of `Window::lines` (`window.rs` lines 139-149): no draw
for an empty slice, a single point draw for a singleton, otherwise one
line draw per adjacent pair, indexed `i` and `i+1` for
`i in 0..points.len()-1`. -/
def lines (points : List (Int × Int)) (color : Nat) : List Draw :=
  if points.length = 0 then
    []
  else if points.length = 1 then
    [Draw.point (points.getD 0 (0, 0)).1 (points.getD 0 (0, 0)).2 color]
  else
    (List.range (points.length - 1)).map (fun i =>
      Draw.line (points.getD i (0, 0)).1 (points.getD i (0, 0)).2
        (points.getD (i + 1) (0, 0)).1 (points.getD (i + 1) (0, 0)).2 color)

/-! ## Glyph rendering -/

/-- Embedding of `Window::char` (`window.rs` lines 152-173), returning
the list of positions at which a point is drawn, in drawing order.  The
font table is a parameter: `offset` starts at `c * 16` and is
incremented once per row; a row whose offset falls outside the table
reads `0`; within a row, column `col` draws at `(x+col, y+row)` exactly
when `(row_data >> (7-col)) & 1 > 0`. -/
def charDraws (font : List Nat) (x y : Int) (c : Nat) : List (Int × Int) :=
  (List.range 16).flatMap (fun row =>
    let off := c * 16 + row
    let row_data := if off < font.length then font.getD off 0 else 0
    (List.range 8).filterMap (fun col =>
      if (row_data >>> (7 - col)) &&& 1 > 0 then
        some (x + (col : Int), y + (row : Int))
      else
        none))

/-! ## Image blitting -/

/-- The `u32 as i32` cast of Rust: reinterpret a 32-bit unsigned value
as signed (two's complement). -/
def i32ofU32 (n : Nat) : Int :=
  if n < 2 ^ 31 then (n : Int) else (n : Int) - 2 ^ 32

/-- Two's-complement wrapping of an integer into the `i32` range, the
effect of Rust's wrapping `i32` addition. -/
def wrap32 (n : Int) : Int :=
  (n + 2 ^ 31) % 2 ^ 32 - 2 ^ 31

/-- The list of integers of a Rust range `a..b`: empty when `b ≤ a`. -/
def intRange (a b : Int) : List Int :=
  (List.range (b - a).toNat).map (fun (k : Nat) => a + (k : Int))

/-- The body of `Window::image`'s nested loops (`window.rs` lines
204-212): walk the destination positions in order, threading the source
index `i`, which is incremented on every iteration but draws only while
`i < data.len()`. -/
def imageLoop (data : List Nat) : List (Int × Int) → Nat → List Draw
  | [], _ => []
  | p :: ps, i =>
    (if h : i < data.length then [Draw.point p.1 p.2 (data.get ⟨i, h⟩)] else [])
      ++ imageLoop data ps (i + 1)

/-- Embedding of `Window::image` (`window.rs` lines 203-213): for
`y in start_y..start_y + h as i32` and `x in start_x..start_x + w as i32`
(row-major), draw `data[i]` at `(x, y)` while `i < data.len()`. -/
def image (start_x start_y : Int) (w h : Nat) (data : List Nat) : List Draw :=
  imageLoop data
    ((intRange start_y (wrap32 (start_y + i32ofU32 h))).flatMap (fun y =>
      (intRange start_x (wrap32 (start_x + i32ofU32 w))).map (fun x => (x, y))))
    0

/-! ## Events and the event pump -/

/-- A domain `Event` (the `event` module's tagged union as described by
the spec and constructed by `window.rs`): a mouse state snapshot, a key
event, or a quit request. -/
inductive Event where
  | mouse (x y : Int) (left middle right : Bool)
  | key (character : Char) (scancode : Nat) (pressed : Bool)
  | quit
deriving DecidableEq

/-- A native SDL2 event as far as `Window::convert_event` discriminates
them (`window.rs` lines 340-360): mouse motion/button-down/button-up,
key-down/key-up with an optional scancode, quit, and everything else. -/
inductive NativeEvent where
  | mouseMotion
  | mouseButtonDown
  | mouseButtonUp
  | keyDown (scancode : Option Scancode)
  | keyUp (scancode : Option Scancode)
  | quit
  | otherKind

/-- The ambient native state read by `Window::convert_event`: the mouse
state snapshot from `ctx.mouse().mouse_state()` and the keyboard
modifier state from `ctx.keyboard().mod_state()`.  Constant during one
`events()` call. -/
structure Ctx where
  mouseX : Int
  mouseY : Int
  mouseLeft : Bool
  mouseMiddle : Bool
  mouseRight : Bool
  capsmod : Bool
  lshiftmod : Bool
  rshiftmod : Bool

/-- Embedding of `Window::convert_event` (`window.rs` lines 316-363):
mouse events collapse to one state snapshot; key events translate via
`convert_scancode` with shift true when caps-lock or either shift
modifier is active; quit yields a quit event; other kinds yield
nothing. -/
def convert_event (ctx : Ctx) (event : NativeEvent) : List Event :=
  let mouse_event :=
    Event.mouse ctx.mouseX ctx.mouseY ctx.mouseLeft ctx.mouseMiddle ctx.mouseRight
  let shift := ctx.capsmod || ctx.lshiftmod || ctx.rshiftmod
  match event with
  | .mouseMotion => [mouse_event]
  | .mouseButtonDown => [mouse_event]
  | .mouseButtonUp => [mouse_event]
  | .keyDown scancode =>
    match convert_scancode scancode shift with
    | some code => [Event.key code.1 code.2 true]
    | none => []
  | .keyUp scancode =>
    match convert_scancode scancode shift with
    | some code => [Event.key code.1 code.2 false]
    | none => []
  | .quit => [Event.quit]
  | .otherKind => []

/-- The append-with-capacity-guard loop of `Window::events`
(`window.rs` lines 375-382 and 386-393): each converted event is
appended only while `iter.count < iter.events.len()` (the array length
is 128); once full, the `for` loop breaks and the rest is dropped. -/
def appendEvents : List Event → List Event → List Event
  | batch, [] => batch
  | batch, e :: es =>
    if batch.length < 128 then appendEvents (batch ++ [e]) es else batch

/-- The non-blocking drain loop of `Window::events` (`window.rs` lines
385-397): pop one queued native event, append its conversions, then
`if iter.count + 2 < iter.events.len() { break; }` — i.e. the loop
continues to the next poll only when the batch already holds at least
126 entries. -/
def drainLoop (ctx : Ctx) : List NativeEvent → List Event → List Event
  | [], batch => batch
  | e :: queue, batch =>
    let batch2 := appendEvents batch (convert_event ctx e)
    if batch2.length + 2 < 128 then batch2 else drainLoop ctx queue batch2

/-- Embedding of `Window::events` (`window.rs` lines 366-400).  The
event pump is the queue `queue`; `poll_event` pops its head,
`wait_event` in synchronous mode blocks until the queue is non-empty
and then pops its head.  The result is `none` when the call never
returns (synchronous mode with an empty queue and no further event
arrival modelled), otherwise `some batch` with the accumulated batch in
order. -/
def eventsModel (async : Bool) (ctx : Ctx) (queue : List NativeEvent) :
    Option (List Event) :=
  if async then
    some (drainLoop ctx queue [])
  else
    match queue with
    | [] => none
    | e :: rest => some (drainLoop ctx rest (appendEvents [] (convert_event ctx e)))

/-- A concrete ambient native state used to instantiate theorems about
the event pump on concrete queues. -/
def ctx0 : Ctx :=
  ⟨0, 0, false, false, false, false, false, false⟩

/-- Appending converted events never pushes the batch past the
128-entry capacity of the `EventIter` array. -/
theorem appendEvents_le (es : List Event) :
    ∀ b : List Event, b.length ≤ 128 → (appendEvents b es).length ≤ 128 := by
  induction es with
  | nil =>
    intro b h
    simpa [appendEvents] using h
  | cons e es ih =>
    intro b h
    simp only [appendEvents]
    split
    · exact ih _ (by simp; omega)
    · exact h

/-- The drain loop preserves the 128-entry bound on the batch. -/
theorem drainLoop_le (ctx : Ctx) (q : List NativeEvent) :
    ∀ b : List Event, b.length ≤ 128 → (drainLoop ctx q b).length ≤ 128 := by
  induction q with
  | nil =>
    intro b h
    simpa [drainLoop] using h
  | cons e q ih =>
    intro b h
    simp only [drainLoop]
    split
    · exact appendEvents_le _ _ h
    · exact ih _ (appendEvents_le _ _ h)

/-- Claim C2: in every call to `events()`, the returned batch holds at
most 128 domain events (each append is guarded by the capacity check),
and once the batch is full, further converted events are dropped
(truncation) rather than growing the buffer. -/
theorem events_batch_bounded :
    (∀ (async : Bool) (ctx : Ctx) (queue : List NativeEvent) (batch : List Event),
        eventsModel async ctx queue = some batch → batch.length ≤ 128) ∧
    (∀ (batch rest : List Event), 128 ≤ batch.length → appendEvents batch rest = batch) := by
  constructor
  · intro async ctx queue batch h
    cases async with
    | true =>
      simp only [eventsModel, if_pos, Option.some.injEq] at h
      exact h ▸ drainLoop_le ctx queue [] (by simp)
    | false =>
      cases queue with
      | nil => simp [eventsModel] at h
      | cons e rest =>
        simp only [eventsModel, Bool.false_eq_true, if_false, Option.some.injEq] at h
        exact h ▸ drainLoop_le ctx rest _ (appendEvents_le _ [] (by simp))
  · intro batch rest h
    cases rest with
    | nil => rfl
    | cons e es =>
      simp only [appendEvents]
      rw [if_neg (by omega)]

/-- Witness for claim C2 at a concrete queue and a concrete full
batch. -/
theorem events_batch_bounded_witness :
    ([Event.quit] : List Event).length ≤ 128 ∧
    appendEvents (List.replicate 128 Event.quit) [Event.quit] =
      List.replicate 128 Event.quit :=
  ⟨events_batch_bounded.1 true ctx0 [NativeEvent.quit] [Event.quit] rfl,
   events_batch_bounded.2 (List.replicate 128 Event.quit) [Event.quit] (by simp)⟩

/-- Claim C1 (failing input): with three translatable native events
queued in asynchronous mode, `events()` returns a batch holding only
the first translation: the drain loop's break test
`iter.count + 2 < iter.events.len()` fires as soon as the batch is
below 126 entries, so draining stops after one polled event even though
the queue is non-empty and the batch is far below capacity. -/
theorem events_drain_stops_after_one :
    eventsModel true ctx0 [NativeEvent.quit, NativeEvent.quit, NativeEvent.quit] =
      some [Event.quit] :=
  rfl

/-- Claim C9: in asynchronous mode with an empty native queue,
`events()` returns immediately (it is `some`, never the blocked
outcome) with a batch of zero events; more generally the asynchronous
path always returns without blocking, on any queue. -/
theorem events_async_empty (ctx : Ctx) :
    eventsModel true ctx [] = some [] ∧
    ∀ queue : List NativeEvent, (eventsModel true ctx queue).isSome = true := by
  refine ⟨rfl, ?_⟩
  intro queue
  simp [eventsModel]

/-- Witness for claim C9 at a concrete ambient state. -/
theorem events_async_empty_witness :
    eventsModel true ctx0 [] = some [] :=
  (events_async_empty ctx0).1

/-- Claim C6: `convert_scancode` is deterministic and input-only (two
invocations with the same optional scancode and shift flag agree), the
absent-scancode case yields `none`, and every scancode outside the
recognized set (the catch-all arm) yields `none`. -/
theorem convert_scancode_deterministic :
    (∀ (so : Option Scancode) (sh : Bool),
        convert_scancode so sh = convert_scancode so sh) ∧
    (∀ sh : Bool, convert_scancode none sh = none) ∧
    (∀ (n : Nat) (sh : Bool), convert_scancode (some (Scancode.other n)) sh = none) :=
  ⟨fun _ _ => rfl, fun _ => rfl, fun _ _ => rfl⟩

/-- Witness for claim C6 at concrete inputs: the absent scancode and an
unrecognized scancode both translate to `none`. -/
theorem convert_scancode_deterministic_witness :
    convert_scancode none true = none ∧
    convert_scancode (some (Scancode.other 512)) false = none :=
  ⟨convert_scancode_deterministic.2.1 true,
   convert_scancode_deterministic.2.2 512 false⟩

/-- Claim C7: decoding a 32-bit packed color into the four channel
bytes (alpha from the most significant byte, then red, green, blue) as
the drawing primitives do, and re-packing the bytes in the same
significance order, restores the original value. -/
theorem color_roundtrip (d : Nat) (h : d < 2 ^ 32) :
    packColor (decodeColor d).1 (decodeColor d).2.1 (decodeColor d).2.2.1
      (decodeColor d).2.2.2 = d := by
  simp only [decodeColor, packColor, Nat.shiftRight_eq_div_pow]
  omega

/-- Witness for claim C7 at the concrete color 0x12345678. -/
theorem color_roundtrip_witness :
    packColor (decodeColor 305419896).1 (decodeColor 305419896).2.1
      (decodeColor 305419896).2.2.1 (decodeColor 305419896).2.2.2 = 305419896 :=
  color_roundtrip 305419896 (by norm_num)

/-- Claim C8 (failing input): `sync_path` on a cache `(x, y) = (0, 0)`
with the native window at position `(3, 4)` leaves `x = 4` (the native
y coordinate, because the source assigns `self.x` twice) and `y = 0`
(never updated), while width, height and title are refreshed. -/
theorem sync_path_skips_y :
    sync_path ⟨0, 0, 0, 0, "old"⟩ (some ⟨3, 4, 10, 20, "new"⟩) =
      ⟨4, 0, 10, 20, "new"⟩ :=
  rfl

/-- Claim C10: for every digit and punctuation scancode the shift
selection is inverted relative to the letters: `shift = true` yields
the unshifted base glyph and `shift = false` yields the shifted symbol,
while each letter yields its uppercase form exactly when
`shift = true`.  (`Char.ofNat` codes: 96 backtick, 123 and 125 curly
braces, 92 backslash, 39 apostrophe, 34 double quote.) -/
theorem convert_scancode_shift_inverted :
    (convert_scancode (some Scancode.Num0) true = some ('0', K_0) ∧
     convert_scancode (some Scancode.Num0) false = some (')', K_0)) ∧
    (convert_scancode (some Scancode.Num1) true = some ('1', K_1) ∧
     convert_scancode (some Scancode.Num1) false = some ('!', K_1)) ∧
    (convert_scancode (some Scancode.Num2) true = some ('2', K_2) ∧
     convert_scancode (some Scancode.Num2) false = some ('@', K_2)) ∧
    (convert_scancode (some Scancode.Num3) true = some ('3', K_3) ∧
     convert_scancode (some Scancode.Num3) false = some ('#', K_3)) ∧
    (convert_scancode (some Scancode.Num4) true = some ('4', K_4) ∧
     convert_scancode (some Scancode.Num4) false = some ('$', K_4)) ∧
    (convert_scancode (some Scancode.Num5) true = some ('5', K_5) ∧
     convert_scancode (some Scancode.Num5) false = some ('%', K_5)) ∧
    (convert_scancode (some Scancode.Num6) true = some ('6', K_6) ∧
     convert_scancode (some Scancode.Num6) false = some ('^', K_6)) ∧
    (convert_scancode (some Scancode.Num7) true = some ('7', K_7) ∧
     convert_scancode (some Scancode.Num7) false = some ('&', K_7)) ∧
    (convert_scancode (some Scancode.Num8) true = some ('8', K_8) ∧
     convert_scancode (some Scancode.Num8) false = some ('*', K_8)) ∧
    (convert_scancode (some Scancode.Num9) true = some ('9', K_9) ∧
     convert_scancode (some Scancode.Num9) false = some ('(', K_9)) ∧
    (convert_scancode (some Scancode.Grave) true = some (Char.ofNat 96, K_TICK) ∧
     convert_scancode (some Scancode.Grave) false = some ('~', K_TICK)) ∧
    (convert_scancode (some Scancode.Minus) true = some ('-', K_MINUS) ∧
     convert_scancode (some Scancode.Minus) false = some ('_', K_MINUS)) ∧
    (convert_scancode (some Scancode.Equals) true = some ('=', K_EQUALS) ∧
     convert_scancode (some Scancode.Equals) false = some ('+', K_EQUALS)) ∧
    (convert_scancode (some Scancode.LeftBracket) true = some ('[', K_BRACE_OPEN) ∧
     convert_scancode (some Scancode.LeftBracket) false = some (Char.ofNat 123, K_BRACE_OPEN)) ∧
    (convert_scancode (some Scancode.RightBracket) true = some (']', K_BRACE_CLOSE) ∧
     convert_scancode (some Scancode.RightBracket) false = some (Char.ofNat 125, K_BRACE_CLOSE)) ∧
    (convert_scancode (some Scancode.Backslash) true = some (Char.ofNat 92, K_BACKSLASH) ∧
     convert_scancode (some Scancode.Backslash) false = some ('|', K_BACKSLASH)) ∧
    (convert_scancode (some Scancode.Semicolon) true = some (';', K_SEMICOLON) ∧
     convert_scancode (some Scancode.Semicolon) false = some (':', K_SEMICOLON)) ∧
    (convert_scancode (some Scancode.Apostrophe) true = some (Char.ofNat 39, K_QUOTE) ∧
     convert_scancode (some Scancode.Apostrophe) false = some (Char.ofNat 34, K_QUOTE)) ∧
    (convert_scancode (some Scancode.Comma) true = some (',', K_COMMA) ∧
     convert_scancode (some Scancode.Comma) false = some ('<', K_COMMA)) ∧
    (convert_scancode (some Scancode.Period) true = some ('.', K_PERIOD) ∧
     convert_scancode (some Scancode.Period) false = some ('>', K_PERIOD)) ∧
    (convert_scancode (some Scancode.Slash) true = some ('/', K_SLASH) ∧
     convert_scancode (some Scancode.Slash) false = some ('?', K_SLASH)) ∧
    (∀ sh : Bool,
      convert_scancode (some Scancode.A) sh = some (if sh then 'A' else 'a', K_A) ∧
      convert_scancode (some Scancode.B) sh = some (if sh then 'B' else 'b', K_B) ∧
      convert_scancode (some Scancode.C) sh = some (if sh then 'C' else 'c', K_C) ∧
      convert_scancode (some Scancode.D) sh = some (if sh then 'D' else 'd', K_D) ∧
      convert_scancode (some Scancode.E) sh = some (if sh then 'E' else 'e', K_E) ∧
      convert_scancode (some Scancode.F) sh = some (if sh then 'F' else 'f', K_F) ∧
      convert_scancode (some Scancode.G) sh = some (if sh then 'G' else 'g', K_G) ∧
      convert_scancode (some Scancode.H) sh = some (if sh then 'H' else 'h', K_H) ∧
      convert_scancode (some Scancode.I) sh = some (if sh then 'I' else 'i', K_I) ∧
      convert_scancode (some Scancode.J) sh = some (if sh then 'J' else 'j', K_J) ∧
      convert_scancode (some Scancode.K) sh = some (if sh then 'K' else 'k', K_K) ∧
      convert_scancode (some Scancode.L) sh = some (if sh then 'L' else 'l', K_L) ∧
      convert_scancode (some Scancode.M) sh = some (if sh then 'M' else 'm', K_M) ∧
      convert_scancode (some Scancode.N) sh = some (if sh then 'N' else 'n', K_N) ∧
      convert_scancode (some Scancode.O) sh = some (if sh then 'O' else 'o', K_O) ∧
      convert_scancode (some Scancode.P) sh = some (if sh then 'P' else 'p', K_P) ∧
      convert_scancode (some Scancode.Q) sh = some (if sh then 'Q' else 'q', K_Q) ∧
      convert_scancode (some Scancode.R) sh = some (if sh then 'R' else 'r', K_R) ∧
      convert_scancode (some Scancode.S) sh = some (if sh then 'S' else 's', K_S) ∧
      convert_scancode (some Scancode.T) sh = some (if sh then 'T' else 't', K_T) ∧
      convert_scancode (some Scancode.U) sh = some (if sh then 'U' else 'u', K_U) ∧
      convert_scancode (some Scancode.V) sh = some (if sh then 'V' else 'v', K_V) ∧
      convert_scancode (some Scancode.W) sh = some (if sh then 'W' else 'w', K_W) ∧
      convert_scancode (some Scancode.X) sh = some (if sh then 'X' else 'x', K_X) ∧
      convert_scancode (some Scancode.Y) sh = some (if sh then 'Y' else 'y', K_Y) ∧
      convert_scancode (some Scancode.Z) sh = some (if sh then 'Z' else 'z', K_Z)) := by
  refine ⟨⟨rfl, rfl⟩, ⟨rfl, rfl⟩, ⟨rfl, rfl⟩, ⟨rfl, rfl⟩, ⟨rfl, rfl⟩, ⟨rfl, rfl⟩,
    ⟨rfl, rfl⟩, ⟨rfl, rfl⟩, ⟨rfl, rfl⟩, ⟨rfl, rfl⟩, ⟨rfl, rfl⟩, ⟨rfl, rfl⟩,
    ⟨rfl, rfl⟩, ⟨rfl, rfl⟩, ⟨rfl, rfl⟩, ⟨rfl, rfl⟩, ⟨rfl, rfl⟩, ⟨rfl, rfl⟩,
    ⟨rfl, rfl⟩, ⟨rfl, rfl⟩, ⟨rfl, rfl⟩, ?_⟩
  intro sh
  cases sh <;>
    exact ⟨rfl, rfl, rfl, rfl, rfl, rfl, rfl, rfl, rfl, rfl, rfl, rfl, rfl,
      rfl, rfl, rfl, rfl, rfl, rfl, rfl, rfl, rfl, rfl, rfl, rfl, rfl⟩

/-- Claim C3: `lines` performs no draws on an empty slice, exactly one
point draw at `points[0]` for a singleton, and for `n ≥ 2` points
exactly `n-1` line draws, the `i`-th being the segment from `points[i]`
to `points[i+1]`, in that order. -/
theorem lines_draws (points : List (Int × Int)) (color : Nat) :
    (points.length = 0 → lines points color = []) ∧
    (∀ p : Int × Int, points = [p] → lines points color = [Draw.point p.1 p.2 color]) ∧
    (2 ≤ points.length →
      (lines points color).length = points.length - 1 ∧
      ∀ i : Nat, i < points.length - 1 →
        (lines points color).getD i (Draw.point 0 0 0) =
          Draw.line (points.getD i (0, 0)).1 (points.getD i (0, 0)).2
            (points.getD (i + 1) (0, 0)).1 (points.getD (i + 1) (0, 0)).2 color) := by
  refine ⟨?_, ?_, ?_⟩
  · intro h
    simp [lines, h]
  · rintro p rfl
    simp [lines]
  · intro h2
    have h0 : ¬points.length = 0 := by omega
    have h1 : ¬points.length = 1 := by omega
    simp only [lines, if_neg h0, if_neg h1]
    refine ⟨by simp, ?_⟩
    intro i hi
    have hlen : i < ((List.range (points.length - 1)).map (fun i =>
        Draw.line (points.getD i (0, 0)).1 (points.getD i (0, 0)).2
          (points.getD (i + 1) (0, 0)).1 (points.getD (i + 1) (0, 0)).2 color)).length := by
      simpa using hi
    rw [List.getD_eq_getElem _ _ hlen, List.getElem_map, List.getElem_range]

/-- Witness for claim C3 on the three points (0,0), (1,2), (3,4). -/
theorem lines_draws_witness :
    (lines [((0 : Int), (0 : Int)), (1, 2), (3, 4)] 7).length = 2 ∧
    (lines [((0 : Int), (0 : Int)), (1, 2), (3, 4)] 7).getD 0 (Draw.point 0 0 0) =
      Draw.line 0 0 1 2 7 := by
  have h := (lines_draws [((0 : Int), (0 : Int)), (1, 2), (3, 4)] 7).2.2 (by decide)
  exact ⟨h.1, h.2 0 (by decide)⟩

/-- The bit test of the glyph rasterizer, `(d >> k) & 1 > 0`, agrees
with `Nat.testBit`. -/
theorem shiftRight_and_one_pos (d k : Nat) :
    (d >>> k) &&& 1 > 0 ↔ Nat.testBit d k = true := by
  simp [Nat.testBit, Nat.land_comm, Nat.pos_iff_ne_zero, bne]

/-- Membership characterization of `charDraws`: a position is drawn
exactly when some row below 16 and column below 8 produce it with the
corresponding font bit set (rows outside the table reading zero). -/
theorem charDraws_mem (font : List Nat) (x y : Int) (c : Nat) (p : Int × Int) :
    p ∈ charDraws font x y c ↔
      ∃ row, row < 16 ∧ ∃ col, col < 8 ∧
        ((if c * 16 + row < font.length then font.getD (c * 16 + row) 0 else 0) >>>
            (7 - col)) &&& 1 > 0 ∧
        p = (x + (col : Int), y + (row : Int)) := by
  simp only [charDraws, List.mem_flatMap, List.mem_filterMap, List.mem_range]
  constructor
  · rintro ⟨row, hrow, col, hcol, hsome⟩
    refine ⟨row, hrow, col, hcol, ?_⟩
    by_cases hf : c * 16 + row < font.length
    · rw [if_pos hf] at hsome ⊢
      split at hsome
      · exact ⟨by assumption, (Option.some.inj hsome).symm⟩
      · exact absurd hsome (by simp)
    · rw [if_neg hf] at hsome ⊢
      split at hsome
      · exact ⟨by assumption, (Option.some.inj hsome).symm⟩
      · exact absurd hsome (by simp)
  · rintro ⟨row, hrow, col, hcol, hbit, rfl⟩
    exact ⟨row, hrow, col, hcol, by rw [if_pos hbit]⟩

/-- Claim C5: a character whose glyph block `c * 16` lies at or beyond
the end of the font table draws zero points; for a character whose
whole block is inside the table, a point is drawn at `(x+col, y+row)`
exactly when bit `7 - col` of the row's font byte is set, for each of
the 16 rows and 8 columns. -/
theorem char_glyph (font : List Nat) (x y : Int) (c : Nat) :
    (font.length ≤ c * 16 → charDraws font x y c = []) ∧
    (c * 16 + 16 ≤ font.length →
      ∀ row : Nat, row < 16 → ∀ col : Nat, col < 8 →
        ((x + (col : Int), y + (row : Int)) ∈ charDraws font x y c ↔
          Nat.testBit (font.getD (c * 16 + row) 0) (7 - col) = true)) := by
  constructor
  · intro hlen
    rw [List.eq_nil_iff_forall_not_mem]
    intro p hp
    rw [charDraws_mem] at hp
    obtain ⟨row, hrow, col, hcol, hbit, hp⟩ := hp
    rw [if_neg (by omega)] at hbit
    simp at hbit
  · intro hlen row hrow col hcol
    rw [charDraws_mem]
    constructor
    · rintro ⟨row', hrow', col', hcol', hbit, heq⟩
      rw [Prod.mk.injEq] at heq
      obtain ⟨h1, h2⟩ := heq
      have hc : col' = col := by omega
      have hr : row' = row := by omega
      subst hc hr
      rw [if_pos (by omega)] at hbit
      exact (shiftRight_and_one_pos _ _).mp hbit
    · intro hbit
      refine ⟨row, hrow, col, hcol, ?_, rfl⟩
      rw [if_pos (by omega)]
      exact (shiftRight_and_one_pos _ _).mpr hbit

/-- Witness for claim C5 on a 16-byte font (one glyph, every row byte
128): character 1 is beyond the table and draws nothing; for character
0, the drawn position (0,0) corresponds to bit 7 of byte 128. -/
theorem char_glyph_witness :
    charDraws (List.replicate 16 128) 0 0 1 = [] ∧
    (((0 : Int), (0 : Int)) ∈ charDraws (List.replicate 16 128) 0 0 0 ↔
      Nat.testBit 128 7 = true) := by
  refine ⟨(char_glyph (List.replicate 16 128) 0 0 1).1 (by simp), ?_⟩
  have h := (char_glyph (List.replicate 16 128) 0 0 0).2 (by simp) 0 (by norm_num) 0
    (by norm_num)
  simpa using h

/-- Characterization of `imageLoop`: starting at source index `i`, the
draws are the positions paired with the remaining source pixels, in
order, stopping at whichever of the position list or the source buffer
runs out first. -/
theorem imageLoop_spec (data : List Nat) (ps : List (Int × Int)) :
    ∀ i : Nat, imageLoop data ps i =
      (List.range (min ps.length (data.length - i))).map (fun k =>
        Draw.point (ps.getD k (0, 0)).1 (ps.getD k (0, 0)).2 (data.getD (i + k) 0)) := by
  induction ps with
  | nil =>
    intro i
    simp [imageLoop]
  | cons p ps ih =>
    intro i
    simp only [imageLoop]
    by_cases h : i < data.length
    · rw [dif_pos h, List.singleton_append, ih (i + 1)]
      have hmin : min (p :: ps).length (data.length - i) =
          min ps.length (data.length - (i + 1)) + 1 := by
        simp only [List.length_cons]
        omega
      rw [hmin, List.range_succ_eq_map, List.map_cons, List.map_map]
      congr 1
      · simp only [List.getD_cons_zero, Nat.add_zero]
        rw [List.getD_eq_getElem data 0 h]
        rfl
      · apply List.map_congr_left
        intro k hk
        simp only [Function.comp_apply, List.getD_cons_succ]
        have : i + 1 + k = i + (k + 1) := by omega
        rw [this]
    · rw [dif_neg h, List.nil_append, ih (i + 1)]
      have h1 : data.length - i = 0 := by omega
      have h2 : data.length - (i + 1) = 0 := by omega
      simp [h1, h2]

/-- A Rust range `a..a+n` with a non-negative extent enumerates the `n`
integers starting at `a`. -/
theorem intRange_add (a : Int) (n : Nat) :
    intRange a (a + (n : Int)) = (List.range n).map (fun (k : Nat) => a + (k : Int)) := by
  unfold intRange
  have : ((a + (n : Int)) - a).toNat = n := by omega
  rw [this]

/-- The row-major grid walked by `Window::image`'s nested loops,
flattened: the `k`-th position visited is
`(sx + k % w, sy + k / w)`. -/
theorem positions_eq (sx sy : Int) (w : Nat) (hw0 : 0 < w) :
    ∀ h : Nat,
      ((List.range h).map (fun (k : Nat) => sy + (k : Int))).flatMap (fun y =>
          ((List.range w).map (fun (k : Nat) => sx + (k : Int))).map (fun x => ((x, y) : Int × Int))) =
        (List.range (h * w)).map (fun (k : Nat) =>
          ((sx + ((k % w : Nat) : Int), sy + ((k / w : Nat) : Int)) : Int × Int)) := by
  intro h
  induction h with
  | zero => simp
  | succ h ih =>
    rw [List.range_succ, List.map_append, List.flatMap_append, ih]
    simp only [List.map_cons, List.map_nil, List.flatMap_cons, List.flatMap_nil,
      List.append_nil, List.map_map]
    rw [show (h + 1) * w = h * w + w from by ring, List.range_add, List.map_append,
      List.map_map]
    congr 1
    apply List.map_congr_left
    intro c hc
    rw [List.mem_range] at hc
    simp only [Function.comp_apply]
    have h1 : (h * w + c) % w = c := by
      rw [Nat.mul_comm h w, Nat.mul_add_mod, Nat.mod_eq_of_lt hc]
    have h2 : (h * w + c) / w = h := by
      rw [Nat.mul_comm h w, Nat.mul_add_div hw0, Nat.div_eq_of_lt hc]
      omega
    rw [h1, h2]

/-- Claim C4 (amended): for dimensions and start positions whose range
endpoints stay within the `i32` range (`w, h < 2^31` and
`start + extent < 2^31` on both axes), `image` with a data buffer
shorter than `w * h` draws exactly `data.length` pixels, sending source
pixel `i` to the `i`-th position of the row-major traversal,
`(start_x + i % w, start_y + i / w)`. -/
theorem image_partial_rowMajor (sx sy : Int) (w h : Nat) (data : List Nat)
    (hw : w < 2 ^ 31) (hh : h < 2 ^ 31)
    (hx1 : -2 ^ 31 ≤ sx) (hx2 : sx + (w : Int) < 2 ^ 31)
    (hy1 : -2 ^ 31 ≤ sy) (hy2 : sy + (h : Int) < 2 ^ 31)
    (hdata : data.length < w * h) :
    image sx sy w h data = (List.range data.length).map (fun i =>
      Draw.point (sx + ((i % w : Nat) : Int)) (sy + ((i / w : Nat) : Int))
        (data.getD i 0)) := by
  have hw0 : 0 < w := by
    rcases Nat.eq_zero_or_pos w with h0 | h0
    · subst h0; simp at hdata
    · exact h0
  have hle : data.length ≤ h * w := by
    rw [Nat.mul_comm]
    omega
  unfold image
  have ew : i32ofU32 w = (w : Int) := by unfold i32ofU32; rw [if_pos hw]
  have eh : i32ofU32 h = (h : Int) := by unfold i32ofU32; rw [if_pos hh]
  rw [ew, eh]
  have wx : wrap32 (sx + (w : Int)) = sx + (w : Int) := by
    unfold wrap32
    omega
  have wy : wrap32 (sy + (h : Int)) = sy + (h : Int) := by
    unfold wrap32
    omega
  rw [wx, wy]
  simp only [intRange_add]
  rw [positions_eq sx sy w hw0 h, imageLoop_spec]
  simp only [List.length_map, List.length_range, Nat.sub_zero]
  rw [min_eq_right hle]
  apply List.map_congr_left
  intro k hk
  rw [List.mem_range] at hk
  have hk2 : k < h * w := lt_of_lt_of_le hk hle
  have hgl : k < ((List.range (h * w)).map (fun (k : Nat) =>
      ((sx + ((k % w : Nat) : Int), sy + ((k / w : Nat) : Int)) : Int × Int))).length := by
    simpa using hk2
  rw [List.getD_eq_getElem _ _ hgl, List.getElem_map, List.getElem_range]
  simp

/-- Claim C4 (counterexample to the unrestricted statement): at
`w = 2^31` the cast `w as i32` is negative, the inner Rust range
`start_x..start_x + w as i32` is empty, and `image` draws nothing even
though `data.length = 1 < w * h`; the claim as stated would require
exactly one drawn pixel. -/
theorem image_huge_width_draws_nothing :
    ([42] : List Nat).length < 2 ^ 31 * 1 ∧
    image 0 0 (2 ^ 31) 1 [42] = [] ∧
    (image 0 0 (2 ^ 31) 1 [42]).length ≠ ([42] : List Nat).length := by
  have e : image 0 0 (2 ^ 31) 1 [42] = [] := rfl
  refine ⟨by norm_num, e, ?_⟩
  rw [e]
  simp

/-- Witness for the amended claim C4 at a 2-by-2 destination with a
3-pixel source buffer. -/
theorem image_partial_rowMajor_witness :
    image 0 0 2 2 [5, 6, 7] =
      [Draw.point 0 0 5, Draw.point 1 0 6, Draw.point 0 1 7] := by
  have h := image_partial_rowMajor 0 0 2 2 [5, 6, 7] (by norm_num) (by norm_num)
    (by norm_num) (by norm_num) (by norm_num) (by norm_num) (by norm_num)
  rw [h]
  decide
